import Mathlib

set_option maxHeartbeats 1000000

/-
A verification development for the clangd file-granularity symbol index
(FileSymbols / FileIndex / MemIndex) and its YAML symbol serialization.

The data model follows src/clangd/index/FileIndex.h and
src/clangd/index/SymbolYAML.cpp.  The bodies of FileSymbols, MemIndex and
the symbol collector are not part of the reviewed sources (only their
declarations, tests and callers are), so those operations are modelled
from the specification, with the unit tests in
src/unittests/clangd/FileIndexTests.cpp fixing the observable behavior.
-/

namespace Clangd

/-- A (line, column) position, as in SymbolLocation::Position. -/
structure Position where
  Line : Nat
  Column : Nat
  deriving DecidableEq

/-- A file-URI plus half-open start/end range, as in SymbolLocation. -/
structure SymbolLocation where
  FileURI : String
  Start : Position
  End : Position
  deriving DecidableEq

/-- Symbol languages, as enumerated in SymbolYAML.cpp. -/
inductive SymbolLanguage where
  | C | CXX | ObjC | Swift
  deriving DecidableEq

/-- Symbol kinds, as enumerated in SymbolYAML.cpp. -/
inductive SymbolKind where
  | Unknown | Function | Module | Namespace | NamespaceAlias | Macro
  | Enum | Struct | Class | Protocol | Extension | Union | TypeAlias
  | Variable | Field | EnumConstant | InstanceMethod | ClassMethod
  | StaticMethod | InstanceProperty | ClassProperty | StaticProperty
  | Constructor | Destructor | ConversionFunction | Parameter | Using
  deriving DecidableEq

/-- Kind and language tag of a symbol, as in index::SymbolInfo. -/
structure SymbolInfo where
  Kind : SymbolKind
  Lang : SymbolLanguage
  deriving DecidableEq

/-- One declared entity.  The ID is the content-derived identity
(serialized as a hex string); we carry it as that string. -/
structure Symbol where
  ID : String
  Name : String
  Scope : String
  SymInfo : SymbolInfo
  CanonicalDeclaration : SymbolLocation
  Definition : SymbolLocation
  References : Nat
  IsIndexedForCodeCompletion : Bool
  Signature : String
  CompletionSnippetSuffix : String
  Documentation : String
  ReturnType : String
  IncludeHeader : String
  deriving DecidableEq

/-- The default-constructed Position. -/
def Position.empty : Position := { Line := 0, Column := 0 }

/-- The default-constructed SymbolLocation. -/
def SymbolLocation.empty : SymbolLocation :=
  { FileURI := "", Start := Position.empty, End := Position.empty }

/-- The default-constructed Symbol (all fields at their defaults). -/
def Symbol.empty : Symbol :=
  { ID := "", Name := "", Scope := "",
    SymInfo := { Kind := SymbolKind.Unknown, Lang := SymbolLanguage.C },
    CanonicalDeclaration := SymbolLocation.empty,
    Definition := SymbolLocation.empty,
    References := 0, IsIndexedForCodeCompletion := false,
    Signature := "", CompletionSnippetSuffix := "", Documentation := "",
    ReturnType := "", IncludeHeader := "" }

/-- One located mention of a symbol, with bit-combinable kind flags
(declaration / definition / reference), as in SymbolOccurrence. -/
structure SymbolOccurrence where
  Location : SymbolLocation
  Kind : Nat
  deriving DecidableEq

/-- SymbolOccurrenceKind::Declaration bit. -/
def occKindDeclaration : Nat := 1
/-- SymbolOccurrenceKind::Definition bit. -/
def occKindDefinition : Nat := 2
/-- SymbolOccurrenceKind::Reference bit. -/
def occKindReference : Nat := 4

/-- A frozen symbol batch: a list of symbols, no two sharing an ID once
built through the builder. -/
abbrev SymbolSlab := List Symbol

/-- A frozen occurrence batch: insertion-ordered (symbol ID, occurrence)
pairs belonging to one file. -/
abbrev OccurrenceSlab := List (String × SymbolOccurrence)

/-- Modelled from the spec: the insertion-time SymbolSlab::Builder performs
within-batch merge-by-id (a later insert with an already-present ID
replaces the stored symbol), so a frozen batch never holds two symbols
with the same ID. -/
def slabInsert (acc : SymbolSlab) (s : Symbol) : SymbolSlab :=
  if acc.any (fun t => t.ID == s.ID) then
    acc.map (fun t => if t.ID == s.ID then s else t)
  else acc ++ [s]

/-- Builds a frozen SymbolSlab from a sequence of inserted symbols. -/
def buildSlab (l : List Symbol) : SymbolSlab := l.foldl slabInsert []

/-- Modelled from the spec: the Per-File Store (class FileSymbols, whose
implementation is missing from the sources).  It keeps, per file path,
the latest symbol batch and the latest occurrence batch, modelled as
association lists keyed by path. -/
structure FileSymbols where
  FileToSlabs : List (String × SymbolSlab)
  FileToOccurrenceSlabs : List (String × OccurrenceSlab)
  deriving DecidableEq

/-- The empty Per-File Store. -/
def FileSymbols.empty : FileSymbols :=
  { FileToSlabs := [], FileToOccurrenceSlabs := [] }

/-- Removes every entry for a key from an association list. -/
def eraseKey (k : String) (m : List (String × α)) : List (String × α) :=
  m.filter (fun e => !(e.1 == k))

/-- Replaces the entry for a key in an association list. -/
def setKey (k : String) (v : α) (m : List (String × α)) : List (String × α) :=
  eraseKey k m ++ [(k, v)]

/-- Modelled from the spec: FileSymbols::update replaces the entry for a
path; an absent symbol (occurrence) batch removes that file's symbols
(occurrences) entirely.  Always succeeds. -/
def FileSymbols.update (fs : FileSymbols) (path : String)
    (slab : Option SymbolSlab) (occs : Option OccurrenceSlab) : FileSymbols :=
  { FileToSlabs :=
      match slab with
      | none => eraseKey path fs.FileToSlabs
      | some sl => setKey path sl fs.FileToSlabs
    FileToOccurrenceSlabs :=
      match occs with
      | none => eraseKey path fs.FileToOccurrenceSlabs
      | some oc => setKey path oc fs.FileToOccurrenceSlabs }

/-- Modelled from the spec: FileSymbols::allSymbols builds a merged view by
iterating the current map and concatenating batch contents. -/
def FileSymbols.allSymbols (fs : FileSymbols) : List Symbol :=
  (fs.FileToSlabs.map Prod.snd).flatten

/-- Modelled from the spec: FileSymbols::allOccurrences concatenates all
active files' occurrence batches (here kept flat; the per-ID view is
recovered by occurrencesOfId). -/
def FileSymbols.allOccurrencesList (fs : FileSymbols) : OccurrenceSlab :=
  (fs.FileToOccurrenceSlabs.map Prod.snd).flatten

/-- The per-ID view of an occurrence list: all occurrences recorded under
one symbol ID. -/
def occurrencesOfId (l : OccurrenceSlab) (i : String) : List SymbolOccurrence :=
  (l.filter (fun p => p.1 == i)).map Prod.snd

/-- The contribution of one file to the merged symbol view: the
concatenation of the batches stored under that path. -/
def FileSymbols.symbolContribution (fs : FileSymbols) (path : String) :
    List Symbol :=
  ((fs.FileToSlabs.filter (fun e => e.1 == path)).map Prod.snd).flatten

/-- The contribution of one file to the merged occurrence view. -/
def FileSymbols.occurrenceContribution (fs : FileSymbols) (path : String) :
    OccurrenceSlab :=
  ((fs.FileToOccurrenceSlabs.filter (fun e => e.1 == path)).map Prod.snd).flatten

/-- The symbol(ID) helper of the tests: a symbol whose ID and name are the
given string. -/
def mkTestSymbol (i : String) : Symbol :=
  { Symbol.empty with ID := i, Name := i }

/-- The numSlab(Begin, End) helper of the tests: a slab holding symbols
named by the decimal numbers Begin..End. -/
def numSlab (b e : Nat) : SymbolSlab :=
  buildSlab (((List.range (e + 1 - b)).map (fun k => b + k)).map
    (fun n => mkTestSymbol (toString n)))

/-- The occurrenceSlab(ID, Path) helper of the tests: one occurrence for
ID whose location URI is Path. -/
def mkOccurrenceSlab (i : String) (path : String) : OccurrenceSlab :=
  [(i, { Location := { SymbolLocation.empty with FileURI := path },
         Kind := 0 })]

/-- The getSymbolNames helper of the tests. -/
def getSymbolNames (l : List Symbol) : List String := l.map Symbol.Name

/-- The getOccurrencePath helper of the tests. -/
def getOccurrencePath (l : List SymbolOccurrence) : List String :=
  l.map (fun o => o.Location.FileURI)

/-- Modelled from the spec: the rebuild step of the Merged Search Index
(class MemIndex, whose implementation is missing from the sources) keys
the merged symbols by ID, so the installed index keeps exactly one
symbol per distinct ID, the later contribution winning — the behavior
fixed by FileIndexTest.IndexMultiASTAndDeduplicate.  We keep the last
occurrence of each ID. -/
def dedupById : List Symbol → List Symbol
  | [] => []
  | s :: rest =>
    if (rest.map Symbol.ID).contains s.ID then dedupById rest
    else s :: dedupById rest

/-- Modelled from the spec: the Merged Search Index.  It holds the flat
symbol sequence (deduplicated by ID at build time) and the merged
occurrence mapping. -/
structure MemIndex where
  Index : List Symbol
  Occurrences : OccurrenceSlab
  deriving DecidableEq

/-- Modelled from the spec: MemIndex::build installs a point-in-time
snapshot from a merged view. -/
def MemIndex.build (syms : List Symbol) (occs : OccurrenceSlab) : MemIndex :=
  { Index := dedupById syms, Occurrences := occs }

/-- A fuzzy-find request: query string (empty matches all) and scope
filter (empty set is unrestricted). -/
structure FuzzyFindRequest where
  Query : String
  Scopes : List String
  deriving DecidableEq

/-- The empty request, as default-constructed in the tests. -/
def FuzzyFindRequest.empty : FuzzyFindRequest := { Query := "", Scopes := [] }

/-- Subsequence test on character lists, the query-match contract of the
fuzzy matcher: every query character appears, in order, in the name. -/
def isCharSubseq : List Char → List Char → Bool
  | [], _ => true
  | _ :: _, [] => false
  | c :: cs, d :: ds => if c == d then isCharSubseq cs ds
                        else isCharSubseq (c :: cs) ds

/-- Modelled from the spec: the fuzzy-match contract — an empty query
matches every name, a non-empty query matches when it is a subsequence
of the name. -/
def queryMatches (q name : String) : Bool :=
  isCharSubseq q.toList name.toList

/-- Modelled from the spec: the scope filter compares the symbol scope
against each allowed entry exactly; an empty filter is unrestricted. -/
def scopeAllowed (scopes : List String) (scope : String) : Bool :=
  scopes.isEmpty || scopes.contains scope

/-- Modelled from the spec: MemIndex::fuzzyFind delivers each installed
symbol passing the scope filter and the query match. -/
def MemIndex.fuzzyFind (m : MemIndex) (req : FuzzyFindRequest) :
    List Symbol :=
  m.Index.filter (fun s =>
    scopeAllowed req.Scopes s.Scope && queryMatches req.Query s.Name)

/-- Modelled from the spec: MemIndex::lookup delivers each installed
symbol whose ID is requested. -/
def MemIndex.lookup (m : MemIndex) (ids : List String) : List Symbol :=
  m.Index.filter (fun s => ids.contains s.ID)

/-- A findOccurrences request: requested IDs (a set, kept as a
duplicate-free list) and the kind-flags filter. -/
structure OccurrencesRequest where
  IDs : List String
  Filter : Nat
  deriving DecidableEq

/-- Modelled from the spec: MemIndex::findOccurrences walks the requested
IDs and delivers each stored occurrence under such an ID whose kind
flags intersect the filter. -/
def MemIndex.findOccurrences (m : MemIndex) (req : OccurrencesRequest) :
    List SymbolOccurrence :=
  req.IDs.foldr (fun i acc =>
    ((occurrencesOfId m.Occurrences i).filter
      (fun o => Nat.land req.Filter o.Kind != 0)) ++ acc) []

/-- One top-level declaration seen by the symbol collector: name, scope,
whether it is a purely local (function-body) declaration, and the file
it is declared in. -/
structure Decl where
  Name : String
  Scope : String
  isLocal : Bool
  declFile : String
  deriving DecidableEq

/-- One symbol mention seen by the symbol collector. -/
structure ParsedOccurrence where
  id : String
  kind : Nat
  file : String
  Start : Position
  End : Position
  deriving DecidableEq

/-- A parsed translation unit as the (external, out-of-scope) symbol
collector sees it: its declarations and symbol mentions. -/
structure ParsedFile where
  decls : List Decl
  occs : List ParsedOccurrence
  deriving DecidableEq

/-- The default URI scheme used when no scheme list is supplied. -/
def defaultScheme : String := "file"

/-- Modelled from the spec: the scheme actually used for produced URIs —
one of the configured schemes, or the default scheme if none supplied. -/
def chooseScheme (schemes : List String) : String :=
  match schemes with
  | [] => defaultScheme
  | s :: _ => s

/-- Modelled from the spec: URI production for a file path under the
configured scheme set. -/
def makeURI (schemes : List String) (path : String) : String :=
  chooseScheme schemes ++ ":///" ++ path

/-- Modelled from the spec: the symbol record the collector produces for
one non-local declaration.  The ID is content-derived from the
fully-qualified name, hence equal across files for the same entity. -/
def declSymbol (schemes : List String) (d : Decl) : Symbol :=
  { Symbol.empty with
    ID := d.Scope ++ d.Name, Name := d.Name, Scope := d.Scope,
    CanonicalDeclaration :=
      { SymbolLocation.empty with FileURI := makeURI schemes d.declFile } }

/-- Modelled from the spec: indexAST, the (external) symbol-collection
step, missing from the sources.  It produces the frozen symbol batch
from the non-local declarations (local, function-body declarations are
never indexed) and the frozen occurrence batch from the mentions, with
URIs under the configured scheme set. -/
def indexAST (schemes : List String) (pf : ParsedFile) :
    SymbolSlab × OccurrenceSlab :=
  (buildSlab ((pf.decls.filter (fun d => !d.isLocal)).map
      (declSymbol schemes)),
   pf.occs.map (fun o =>
     (o.id, { Location := { FileURI := makeURI schemes o.file,
                            Start := o.Start, End := o.End },
              Kind := o.kind })))

/-- Modelled from the spec: the Index Facade (class FileIndex, whose
implementation is missing from the sources): the per-file store, the
installed merged index, and the configured URI schemes. -/
structure FileIndex where
  URISchemes : List String
  FSymbols : FileSymbols
  Index : MemIndex
  deriving DecidableEq

/-- A freshly constructed FileIndex with the given URI schemes. -/
def FileIndex.init (schemes : List String) : FileIndex :=
  { URISchemes := schemes, FSymbols := FileSymbols.empty,
    Index := MemIndex.build [] [] }

/-- Modelled from the spec: FileIndex::update — an absent parsed unit
removes the file from the store; otherwise the collector runs and the
store entry is replaced; either way the merged index is rebuilt from a
fresh merged view. -/
def FileIndex.update (m : FileIndex) (path : String)
    (ast : Option ParsedFile) : FileIndex :=
  let fs :=
    match ast with
    | none => m.FSymbols.update path none none
    | some pf =>
      let r := indexAST m.URISchemes pf
      m.FSymbols.update path (some r.1) (some r.2)
  { m with FSymbols := fs,
           Index := MemIndex.build fs.allSymbols fs.allOccurrencesList }

/-- The match helper of the tests: scope-qualified names delivered by
fuzzyFind. -/
def matchQ (m : FileIndex) (req : FuzzyFindRequest) : List String :=
  (m.Index.fuzzyFind req).map (fun s => s.Scope ++ s.Name)

/-- The enum string for a SymbolLanguage, as in
ScalarEnumerationTraits of SymbolYAML.cpp. -/
def langToYAML : SymbolLanguage → String
  | SymbolLanguage.C => "C"
  | SymbolLanguage.CXX => "Cpp"
  | SymbolLanguage.ObjC => "ObjC"
  | SymbolLanguage.Swift => "Swift"

/-- Parsing a SymbolLanguage enum string; an unknown string is a parse
failure. -/
def langFromYAML (s : String) : Option SymbolLanguage :=
  if s == "C" then some SymbolLanguage.C
  else if s == "Cpp" then some SymbolLanguage.CXX
  else if s == "ObjC" then some SymbolLanguage.ObjC
  else if s == "Swift" then some SymbolLanguage.Swift
  else none

/-- The enum string for a SymbolKind, as in ScalarEnumerationTraits of
SymbolYAML.cpp (each case serializes to its own name). -/
def kindToYAML : SymbolKind → String
  | SymbolKind.Unknown => "Unknown"
  | SymbolKind.Function => "Function"
  | SymbolKind.Module => "Module"
  | SymbolKind.Namespace => "Namespace"
  | SymbolKind.NamespaceAlias => "NamespaceAlias"
  | SymbolKind.Macro => "Macro"
  | SymbolKind.Enum => "Enum"
  | SymbolKind.Struct => "Struct"
  | SymbolKind.Class => "Class"
  | SymbolKind.Protocol => "Protocol"
  | SymbolKind.Extension => "Extension"
  | SymbolKind.Union => "Union"
  | SymbolKind.TypeAlias => "TypeAlias"
  | SymbolKind.Variable => "Variable"
  | SymbolKind.Field => "Field"
  | SymbolKind.EnumConstant => "EnumConstant"
  | SymbolKind.InstanceMethod => "InstanceMethod"
  | SymbolKind.ClassMethod => "ClassMethod"
  | SymbolKind.StaticMethod => "StaticMethod"
  | SymbolKind.InstanceProperty => "InstanceProperty"
  | SymbolKind.ClassProperty => "ClassProperty"
  | SymbolKind.StaticProperty => "StaticProperty"
  | SymbolKind.Constructor => "Constructor"
  | SymbolKind.Destructor => "Destructor"
  | SymbolKind.ConversionFunction => "ConversionFunction"
  | SymbolKind.Parameter => "Parameter"
  | SymbolKind.Using => "Using"

/-- Parsing a SymbolKind enum string: the case whose name matches, if
any. -/
def kindFromYAML (s : String) : Option SymbolKind :=
  (([SymbolKind.Unknown, SymbolKind.Function, SymbolKind.Module,
     SymbolKind.Namespace, SymbolKind.NamespaceAlias, SymbolKind.Macro,
     SymbolKind.Enum, SymbolKind.Struct, SymbolKind.Class,
     SymbolKind.Protocol, SymbolKind.Extension, SymbolKind.Union,
     SymbolKind.TypeAlias, SymbolKind.Variable, SymbolKind.Field,
     SymbolKind.EnumConstant, SymbolKind.InstanceMethod,
     SymbolKind.ClassMethod, SymbolKind.StaticMethod,
     SymbolKind.InstanceProperty, SymbolKind.ClassProperty,
     SymbolKind.StaticProperty, SymbolKind.Constructor,
     SymbolKind.Destructor, SymbolKind.ConversionFunction,
     SymbolKind.Parameter, SymbolKind.Using] : List SymbolKind).find?
    (fun k => kindToYAML k == s))

/-- The SymInfo sub-mapping of the YAML form: both keys required, enum
values carried as their YAML strings. -/
structure SymbolInfoYAML where
  Kind : String
  Lang : String
  deriving DecidableEq

/-- The YAML mapping for one Symbol, one field per key of
MappingTraits of Symbol in SymbolYAML.cpp.  A required key is always
present; an optional key is an Option, none meaning the key is absent
from the document. -/
structure SymbolYAML where
  ID : String
  Name : String
  Scope : String
  SymInfo : SymbolInfoYAML
  CanonicalDeclaration : Option SymbolLocation
  Definition : Option SymbolLocation
  References : Option Nat
  IsIndexedForCodeCompletion : Option Bool
  Signature : Option String
  CompletionSnippetSuffix : Option String
  Documentation : Option String
  ReturnType : Option String
  IncludeHeader : Option String
  deriving DecidableEq

/-- Emission for a mapOptional key with an explicit default: the key is
omitted when the value equals the default. -/
def emitOptional [DecidableEq α] (v dflt : α) : Option α :=
  if v = dflt then none else some v

/-- Emission for a mapOptional string key with no explicit default: an
empty string is elided from the output. -/
def emitOptionalString (v : String) : Option String :=
  if v = "" then none else some v

/-- Encoding a Symbol into its YAML mapping, following
MappingTraits of Symbol: ID/Name/Scope/SymInfo are mapRequired, the
rest are mapOptional with the documented defaults. -/
def symbolToYAML (s : Symbol) : SymbolYAML :=
  { ID := s.ID
    Name := s.Name
    Scope := s.Scope
    SymInfo := { Kind := kindToYAML s.SymInfo.Kind,
                 Lang := langToYAML s.SymInfo.Lang }
    CanonicalDeclaration :=
      emitOptional s.CanonicalDeclaration SymbolLocation.empty
    Definition := emitOptional s.Definition SymbolLocation.empty
    References := emitOptional s.References 0
    IsIndexedForCodeCompletion :=
      emitOptional s.IsIndexedForCodeCompletion false
    Signature := emitOptionalString s.Signature
    CompletionSnippetSuffix := emitOptionalString s.CompletionSnippetSuffix
    Documentation := emitOptionalString s.Documentation
    ReturnType := emitOptionalString s.ReturnType
    IncludeHeader := emitOptionalString s.IncludeHeader }

/-- Decoding a Symbol from its YAML mapping: required keys are read
directly, enum strings are parsed (failure propagates), and each absent
optional key takes its documented default (empty location, 0, false,
empty string). -/
def symbolFromYAML (y : SymbolYAML) : Option Symbol :=
  match kindFromYAML y.SymInfo.Kind, langFromYAML y.SymInfo.Lang with
  | some k, some l =>
    some { ID := y.ID
           Name := y.Name
           Scope := y.Scope
           SymInfo := { Kind := k, Lang := l }
           CanonicalDeclaration :=
             y.CanonicalDeclaration.getD SymbolLocation.empty
           Definition := y.Definition.getD SymbolLocation.empty
           References := y.References.getD 0
           IsIndexedForCodeCompletion :=
             y.IsIndexedForCodeCompletion.getD false
           Signature := y.Signature.getD ""
           CompletionSnippetSuffix := y.CompletionSnippetSuffix.getD ""
           Documentation := y.Documentation.getD ""
           ReturnType := y.ReturnType.getD ""
           IncludeHeader := y.IncludeHeader.getD "" }
  | _, _ => none

/-- A YAML mapping holding only the required keys: every optional key is
absent. -/
def minimalYAML (i n sc : String) (si : SymbolInfoYAML) : SymbolYAML :=
  { ID := i, Name := n, Scope := sc, SymInfo := si,
    CanonicalDeclaration := none, Definition := none, References := none,
    IsIndexedForCodeCompletion := none, Signature := none,
    CompletionSnippetSuffix := none, Documentation := none,
    ReturnType := none, IncludeHeader := none }

/-- The Symbol a minimal YAML mapping should decode to: required fields
as given, every optional field at its documented default. -/
def defaultedSymbol (i n sc : String) (k : SymbolKind)
    (l : SymbolLanguage) : Symbol :=
  { Symbol.empty with
    ID := i, Name := n, Scope := sc, SymInfo := { Kind := k, Lang := l } }

/-- The store of FileSymbolsTest.UpdateAndGet and SnapshotAliveAfterRemove
after updating file f1 with symbols 1..3 and one occurrence of ID 1 in
f1.cc. -/
def snapStore : FileSymbols :=
  FileSymbols.empty.update "f1" (some (numSlab 1 3))
    (some (mkOccurrenceSlab "1" "f1.cc"))

/-- The store of FileSymbolsTest.Overlap: f1 holds symbols 1..3 and f2
holds symbols 3..5. -/
def overlapStore : FileSymbols :=
  (FileSymbols.empty.update "f1" (some (numSlab 1 3)) (some [])).update
    "f2" (some (numSlab 3 5)) (some [])

/-- File f1 of FileIndexTest.IndexAST / IndexMultiASTAndDeduplicate:
namespace ns with a function f and a class X. -/
def pfDedupA : ParsedFile :=
  { decls := [
      { Name := "ns", Scope := "", isLocal := false, declFile := "f1.h" },
      { Name := "f", Scope := "ns::", isLocal := false, declFile := "f1.h" },
      { Name := "X", Scope := "ns::", isLocal := false, declFile := "f1.h" }],
    occs := [] }

/-- File f2 of FileIndexTest.IndexMultiASTAndDeduplicate: namespace ns
with a function ff and the same class X. -/
def pfDedupB : ParsedFile :=
  { decls := [
      { Name := "ns", Scope := "", isLocal := false, declFile := "f2.h" },
      { Name := "ff", Scope := "ns::", isLocal := false, declFile := "f2.h" },
      { Name := "X", Scope := "ns::", isLocal := false, declFile := "f2.h" }],
    occs := [] }

/-- The index of FileIndexTest.IndexAST: only file f1 indexed. -/
def mIndexAST : FileIndex := (FileIndex.init []).update "f1.cpp" (some pfDedupA)

/-- The index of FileIndexTest.IndexMultiASTAndDeduplicate: both files
indexed; class ns::X is declared by both, with one content-derived ID. -/
def mDedup : FileIndex := mIndexAST.update "f2.cpp" (some pfDedupB)

/-- The scope-restricted request of the multi-AST tests. -/
def reqNs : FuzzyFindRequest := { Query := "", Scopes := ["ns::"] }

/-- File f1 of FileIndexTest.NoLocal: the body of ns::f declares a local
variable, which the collector never indexes. -/
def pfNoLocal : ParsedFile :=
  { decls := [
      { Name := "ns", Scope := "", isLocal := false, declFile := "f1.h" },
      { Name := "f", Scope := "ns::", isLocal := false, declFile := "f1.h" },
      { Name := "local", Scope := "", isLocal := true, declFile := "f1.h" },
      { Name := "X", Scope := "ns::", isLocal := false, declFile := "f1.h" }],
    occs := [] }

/-- The index of FileIndexTest.NoLocal. -/
def mNoLocal : FileIndex := (FileIndex.init []).update "f1.cpp" (some pfNoLocal)

/-- The reference to Foo in test.cc of FileIndexTest.Occurrences,
at the annotated range. -/
def occInTest : ParsedOccurrence :=
  { id := "Foo", kind := 4, file := "test.cc",
    Start := { Line := 2, Column := 4 }, End := { Line := 2, Column := 7 } }

/-- The reference to Foo in test2.cc of FileIndexTest.Occurrences. -/
def occInTest2 : ParsedOccurrence :=
  { id := "Foo", kind := 4, file := "test2.cc",
    Start := { Line := 2, Column := 4 }, End := { Line := 2, Column := 7 } }

/-- test.cc of FileIndexTest.Occurrences: includes the header declaring
Foo and mentions it once. -/
def pfOccTest : ParsedFile :=
  { decls := [
      { Name := "Foo", Scope := "", isLocal := false, declFile := "Foo.h" }],
    occs := [occInTest] }

/-- test2.cc of FileIndexTest.Occurrences. -/
def pfOccTest2 : ParsedFile :=
  { decls := [
      { Name := "Foo", Scope := "", isLocal := false, declFile := "Foo.h" }],
    occs := [occInTest2] }

/-- The index of FileIndexTest.Occurrences, built with the unittest URI
scheme over both files. -/
def mOccurrences : FileIndex :=
  ((FileIndex.init ["unittest"]).update "test.cc" (some pfOccTest)).update
    "test2.cc" (some pfOccTest2)

/-- The request of FileIndexTest.Occurrences: ID Foo, all three kind
bits. -/
def reqOccurrences : OccurrencesRequest :=
  { IDs := ["Foo"],
    Filter := occKindDeclaration ||| occKindDefinition ||| occKindReference }

/-- File f of FileIndexTest.CustomizedURIScheme: a class declared in
header f.h. -/
def pfCustom : ParsedFile :=
  { decls := [
      { Name := "string", Scope := "", isLocal := false, declFile := "f.h" }],
    occs := [] }

/-- The index of FileIndexTest.CustomizedURIScheme, constructed with the
unittest scheme. -/
def mCustom : FileIndex := (FileIndex.init ["unittest"]).update "f.cpp" (some pfCustom)

/-- The declaration of ns::f in the NoLocal scenario. -/
def nsFDecl : Decl :=
  { Name := "f", Scope := "ns::", isLocal := false, declFile := "f1.h" }

/-- The declaration of class string in the CustomizedURIScheme
scenario. -/
def stringDecl : Decl :=
  { Name := "string", Scope := "", isLocal := false, declFile := "f.h" }

/-- The occurrence record expected from test.cc in
FileIndexTest.Occurrences: that file's URI and the annotated range. -/
def expectedOccT1 : SymbolOccurrence :=
  { Location := { FileURI := "unittest:///test.cc",
                  Start := { Line := 2, Column := 4 },
                  End := { Line := 2, Column := 7 } },
    Kind := 4 }

/-- The occurrence record expected from test2.cc in
FileIndexTest.Occurrences. -/
def expectedOccT2 : SymbolOccurrence :=
  { Location := { FileURI := "unittest:///test2.cc",
                  Start := { Line := 2, Column := 4 },
                  End := { Line := 2, Column := 7 } },
    Kind := 4 }

/-- Removing a key then adding back its contribution restores the merged
view, as a multiset identity over any association-list map. -/
theorem flatten_eraseKey_add (m : List (String × List α)) (f : String) :
    (((eraseKey f m).map Prod.snd).flatten : Multiset α)
      + (((m.filter (fun e => e.1 == f)).map Prod.snd).flatten : Multiset α)
      = ((m.map Prod.snd).flatten : Multiset α) := by
  induction m with
  | nil => rfl
  | cons e m ih =>
    cases h : (e.1 == f) with
    | true =>
      simp only [eraseKey, List.filter_cons, h, Bool.not_true, if_neg,
        Bool.false_eq_true, not_false_iff, if_pos, List.map_cons,
        List.flatten_cons, ← Multiset.coe_add] at ih ⊢
      rw [← ih]
      abel
    | false =>
      simp only [eraseKey, List.filter_cons, h, Bool.not_false, if_pos,
        Bool.false_eq_true, if_neg, not_false_iff, List.map_cons,
        List.flatten_cons, ← Multiset.coe_add] at ih ⊢
      rw [← ih]
      abel

/-- Replacing a key's entry merges the old view minus the old
contribution with the new batch. -/
theorem flatten_setKey (m : List (String × List α)) (f : String)
    (v : List α) :
    (((setKey f v m).map Prod.snd).flatten : Multiset α)
      = (((eraseKey f m).map Prod.snd).flatten : Multiset α) + (v : Multiset α) := by
  simp [setKey, List.map_append, List.flatten_append, ← Multiset.coe_add]

/-- Every symbol kept by the ID-deduplication comes from the input. -/
theorem mem_dedupById {x : Symbol} : ∀ {l : List Symbol},
    x ∈ dedupById l → x ∈ l := by
  intro l
  induction l with
  | nil => intro h; exact absurd h (List.not_mem_nil x)
  | cons s rest ih =>
    intro h
    unfold dedupById at h
    by_cases hc : ((rest.map Symbol.ID).contains s.ID) = true
    · rw [if_pos hc] at h
      exact List.mem_cons_of_mem s (ih h)
    · rw [if_neg hc] at h
      rcases List.mem_cons.mp h with h | h
      · exact h ▸ List.mem_cons_self s rest
      · exact List.mem_cons_of_mem s (ih h)

/-- The IDs of a deduplicated symbol list hold no duplicates. -/
theorem dedupById_ids_nodup : ∀ (l : List Symbol),
    ((dedupById l).map Symbol.ID).Nodup := by
  intro l
  induction l with
  | nil => exact List.nodup_nil
  | cons s rest ih =>
    unfold dedupById
    by_cases hc : ((rest.map Symbol.ID).contains s.ID) = true
    · rw [if_pos hc]; exact ih
    · rw [if_neg hc]
      rw [List.map_cons, List.nodup_cons]
      refine ⟨fun hmem => ?_, ih⟩
      rcases List.mem_map.mp hmem with ⟨y, hy, hid⟩
      have : s.ID ∈ rest.map Symbol.ID :=
        hid ▸ List.mem_map_of_mem Symbol.ID (mem_dedupById hy)
      exact hc (List.contains_iff_exists_mem_beq.mpr
        ⟨s.ID, this, by simp⟩)

/-- Each ID of the input survives ID-deduplication exactly once. -/
theorem count_dedupById_ids (i : String) : ∀ (l : List Symbol),
    ((dedupById l).map Symbol.ID).count i
      = if i ∈ l.map Symbol.ID then 1 else 0 := by
  intro l
  induction l with
  | nil => simp [dedupById]
  | cons s rest ih =>
    unfold dedupById
    by_cases hc : ((rest.map Symbol.ID).contains s.ID) = true
    · rw [if_pos hc, ih]
      have hsid : s.ID ∈ rest.map Symbol.ID := by
        rcases List.contains_iff_exists_mem_beq.mp hc with ⟨a, ha, hb⟩
        exact (eq_of_beq hb) ▸ ha
      by_cases hi : i = s.ID
      · simp [hi, hsid]
      · simp [List.mem_cons, hi]
    · rw [if_neg hc, List.map_cons, List.count_cons, ih]
      by_cases hi : i = s.ID
      · have hnot : i ∉ rest.map Symbol.ID := by
          intro hmem
          exact hc (List.contains_iff_exists_mem_beq.mpr
            ⟨i, hmem, by simp [hi]⟩)
        subst hi
        rw [if_neg hnot]
        simp
      · simp [List.mem_cons, hi, Ne.symm hi]

/-- The empty query matches every name. -/
theorem queryMatches_empty (n : String) : queryMatches "" n = true := by
  rw [queryMatches, String.toList_empty]
  simp [isCharSubseq]

/-- The empty scope filter admits every scope. -/
theorem scopeAllowed_nil (sc : String) : scopeAllowed [] sc = true := rfl

/-- A one-entry scope filter is an exact comparison against that entry. -/
theorem scopeAllowed_single (a sc : String) :
    scopeAllowed [a] sc = (sc == a) := by
  cases h : (sc == a) with
  | true => simp [scopeAllowed, List.contains_cons, h, eq_of_beq h]
  | false => simp [scopeAllowed, List.contains_cons, h, ne_of_beq_false h]

/-- An empty, scope-unrestricted request delivers the installed symbol
sequence as is. -/
theorem fuzzyFind_empty_req (m : MemIndex) :
    m.fuzzyFind FuzzyFindRequest.empty = m.Index :=
  List.filter_eq_self.mpr (fun a _ => by
    simp [FuzzyFindRequest.empty, scopeAllowed_nil, queryMatches_empty])

/-- Whatever the request, fuzzyFind over a freshly built index delivers
no two symbols with the same ID. -/
theorem fuzzyFind_build_ids_nodup (syms : List Symbol)
    (occs : OccurrenceSlab) (req : FuzzyFindRequest) :
    (((MemIndex.build syms occs).fuzzyFind req).map Symbol.ID).Nodup :=
  List.Nodup.sublist
    (List.Sublist.map Symbol.ID (List.filter_sublist _))
    (dedupById_ids_nodup syms)

/-- Every symbol inserted into a batch builder leaves the accumulator
holding only prior or inserted symbols. -/
theorem mem_slabInsert {x s : Symbol} {acc : SymbolSlab}
    (h : x ∈ slabInsert acc s) : x ∈ acc ∨ x = s := by
  unfold slabInsert at h
  by_cases hc : (acc.any (fun t => t.ID == s.ID)) = true
  · rw [if_pos hc] at h
    rcases List.mem_map.mp h with ⟨t, ht, hx⟩
    by_cases hid : (t.ID == s.ID) = true
    · right; rw [if_pos hid] at hx; exact hx.symm
    · left; rw [if_neg hid] at hx; exact hx ▸ ht
  · rw [if_neg hc] at h
    rcases List.mem_append.mp h with h | h
    · exact Or.inl h
    · exact Or.inr (List.mem_singleton.mp h)

/-- Every symbol of a built batch was inserted into the builder. -/
theorem mem_buildSlab {x : Symbol} {l : List Symbol}
    (h : x ∈ buildSlab l) : x ∈ l := by
  suffices hgen : ∀ (l : List Symbol) (acc : SymbolSlab),
      x ∈ l.foldl slabInsert acc → x ∈ acc ∨ x ∈ l by
    rcases hgen l [] h with hx | hx
    · exact absurd hx (List.not_mem_nil x)
    · exact hx
  intro l
  induction l with
  | nil => intro acc h; exact Or.inl h
  | cons s rest ih =>
    intro acc h
    rw [List.foldl_cons] at h
    rcases ih (slabInsert acc s) h with hx | hx
    · rcases mem_slabInsert hx with hx | hx
      · exact Or.inl hx
      · exact Or.inr (hx ▸ List.mem_cons_self s rest)
    · exact Or.inr (List.mem_cons_of_mem s hx)

/-- Filtering by a pointwise-disjoint disjunction splits, up to
permutation, into the two filters. -/
theorem filter_or_disjoint_perm (p q : α → Bool) : ∀ (l : List α),
    (∀ x ∈ l, ¬(p x = true ∧ q x = true)) →
    List.Perm (l.filter (fun x => p x || q x))
      (l.filter p ++ l.filter q) := by
  intro l
  induction l with
  | nil => intro _; simp
  | cons a l ih =>
    intro h
    have ha := h a (List.mem_cons_self a l)
    have h' : ∀ x ∈ l, ¬(p x = true ∧ q x = true) :=
      fun x hx => h x (List.mem_cons_of_mem a hx)
    cases hp : p a with
    | true =>
      cases hq : q a with
      | true => exact absurd ⟨hp, hq⟩ ha
      | false =>
        simp only [List.filter_cons, hp, hq, Bool.true_or, if_pos,
          Bool.false_eq_true, if_neg, not_false_iff, List.cons_append]
        exact (ih h').cons a
    | false =>
      cases hq : q a with
      | true =>
        simp only [List.filter_cons, hp, hq, Bool.false_or, if_pos,
          Bool.false_eq_true, if_neg, not_false_iff]
        exact ((ih h').cons a).trans List.perm_middle.symm
      | false =>
        simp only [List.filter_cons, hp, hq, Bool.false_or,
          Bool.false_eq_true, if_neg, not_false_iff]
        exact ih h'

/-- The per-requested-ID walk of findOccurrences delivers, up to
permutation, exactly the stored occurrences whose ID is requested and
whose kind flags intersect the filter, provided the requested IDs hold
no duplicates. -/
theorem occFold_perm (l : OccurrenceSlab) (F : Nat) : ∀ (ids : List String),
    ids.Nodup →
    List.Perm
      (ids.foldr (fun i acc =>
        ((occurrencesOfId l i).filter
          (fun o => Nat.land F o.Kind != 0)) ++ acc) [])
      ((l.filter (fun p =>
          ids.contains p.1 && (Nat.land F p.2.Kind != 0))).map Prod.snd) := by
  intro ids
  induction ids with
  | nil =>
    intro _
    simp [List.contains_nil]
  | cons i rest ih =>
    intro h
    rw [List.nodup_cons] at h
    obtain ⟨hnotin, hnd⟩ := h
    rw [List.foldr_cons]
    have e1 : (occurrencesOfId l i).filter
        (fun o => Nat.land F o.Kind != 0)
        = (l.filter (fun p =>
            (p.1 == i) && (Nat.land F p.2.Kind != 0))).map Prod.snd := by
      rw [occurrencesOfId, List.filter_map, List.filter_filter]
      exact congrArg (List.map Prod.snd)
        (List.filter_congr (fun p _ => Bool.and_comm _ _))
    have e2 : l.filter (fun p =>
          (i :: rest).contains p.1 && (Nat.land F p.2.Kind != 0))
        = l.filter (fun p =>
            ((p.1 == i) && (Nat.land F p.2.Kind != 0))
            || (rest.contains p.1 && (Nat.land F p.2.Kind != 0))) :=
      List.filter_congr (fun p _ => by
        rw [List.contains_cons, Bool.and_or_distrib_right])
    have hdisj : ∀ p ∈ l,
        ¬(((p.1 == i) && (Nat.land F p.2.Kind != 0)) = true
          ∧ ((rest.contains p.1 && (Nat.land F p.2.Kind != 0))) = true) := by
      rintro p _ ⟨h1, h2⟩
      rw [Bool.and_eq_true] at h1 h2
      have hi : p.1 = i := eq_of_beq h1.1
      have hc := h2.1
      rcases List.contains_iff_exists_mem_beq.mp hc with ⟨a, ha, hb⟩
      have hp1 : p.1 ∈ rest := by rw [eq_of_beq hb]; exact ha
      exact hnotin (hi ▸ hp1)
    have hsplit := filter_or_disjoint_perm
      (fun p => (p.1 == i) && (Nat.land F p.2.Kind != 0))
      (fun p => rest.contains p.1 && (Nat.land F p.2.Kind != 0)) l hdisj
    rw [e1, e2]
    refine (List.Perm.append (List.Perm.refl _) (ih hnd)).trans ?_
    have := (hsplit.map Prod.snd).symm
    rwa [List.map_append] at this

/-- The SymbolKind enum strings parse back to the kind they were emitted
for. -/
theorem kindFromYAML_kindToYAML (k : SymbolKind) :
    kindFromYAML (kindToYAML k) = some k := by
  cases k <;> decide

/-- The SymbolLanguage enum strings parse back to the language they were
emitted for. -/
theorem langFromYAML_langToYAML (l : SymbolLanguage) :
    langFromYAML (langToYAML l) = some l := by
  cases l <;> decide

/-- Reading an optional key emitted under a default restores the original
value. -/
theorem emitOptional_getD [DecidableEq α] (v d : α) :
    (emitOptional v d).getD d = v := by
  unfold emitOptional
  by_cases h : v = d
  · simp [h]
  · simp [h]

/-- Reading an optional string key (elided when empty) restores the
original value. -/
theorem emitOptionalString_getD (v : String) :
    (emitOptionalString v).getD "" = v := by
  unfold emitOptionalString
  by_cases h : v = ""
  · simp [h]
  · simp [h]

/-- C1: removing a file's entry with update(f, absent, absent) removes
exactly that file's contribution from the merged symbol and occurrence
views obtained afterwards, while the view obtained before the removal
(a pure value of the model, as the shared-ownership snapshot keeps it)
still reports the pre-removal symbols and occurrences unchanged, as in
FileSymbolsTest.SnapshotAliveAfterRemove. -/
theorem fileSymbols_snapshot_remove :
    (∀ (fs : FileSymbols) (f : String),
      ((((fs.update f none none).allSymbols : List Symbol) : Multiset Symbol)
          + ((fs.symbolContribution f : List Symbol) : Multiset Symbol)
        = ((fs.allSymbols : List Symbol) : Multiset Symbol))
      ∧ ((((fs.update f none none).allOccurrencesList : OccurrenceSlab) :
            Multiset (String × SymbolOccurrence))
          + ((fs.occurrenceContribution f : OccurrenceSlab) :
            Multiset (String × SymbolOccurrence))
        = ((fs.allOccurrencesList : OccurrenceSlab) :
            Multiset (String × SymbolOccurrence))))
    ∧ (getSymbolNames ((snapStore.update "f1" none none).allSymbols) = []
      ∧ List.Perm (getSymbolNames snapStore.allSymbols) ["1", "2", "3"]
      ∧ occurrencesOfId
          ((snapStore.update "f1" none none).allOccurrencesList) "1" = []
      ∧ getOccurrencePath
          (occurrencesOfId snapStore.allOccurrencesList "1") = ["f1.cc"]) := by
  refine ⟨fun fs f => ⟨?_, ?_⟩, by decide⟩
  · simpa [FileSymbols.update, FileSymbols.allSymbols,
      FileSymbols.symbolContribution] using
      flatten_eraseKey_add fs.FileToSlabs f
  · simpa [FileSymbols.update, FileSymbols.allOccurrencesList,
      FileSymbols.occurrenceContribution] using
      flatten_eraseKey_add fs.FileToOccurrenceSlabs f

/-- C2: allSymbols is exactly the multiset union across currently-live
files: an update exchanges precisely the file's previous contribution
for the new batch, and the concrete Overlap scenario keeps the shared
name 3 twice, undeduplicated across files, as in
FileSymbolsTest.Overlap and FileSymbolsTest.UpdateAndGet. -/
theorem fileSymbols_update_merged :
    (∀ (fs : FileSymbols) (f : String) (slab : SymbolSlab)
        (occs : Option OccurrenceSlab),
      (((fs.update f (some slab) occs).allSymbols : List Symbol) :
          Multiset Symbol)
          + ((fs.symbolContribution f : List Symbol) : Multiset Symbol)
        = ((fs.allSymbols : List Symbol) : Multiset Symbol)
            + ((slab : List Symbol) : Multiset Symbol))
    ∧ List.Perm (getSymbolNames overlapStore.allSymbols)
        ["1", "2", "3", "3", "4", "5"]
    ∧ List.Perm (getSymbolNames snapStore.allSymbols) ["1", "2", "3"] := by
  refine ⟨fun fs f slab occs => ?_, by decide, by decide⟩
  have h1 := flatten_eraseKey_add fs.FileToSlabs f
  have h2 := flatten_setKey fs.FileToSlabs f slab
  simp only [FileSymbols.update, FileSymbols.allSymbols,
    FileSymbols.symbolContribution]
  rw [h2, ← h1]
  abel

/-- C3 counterexample: after indexing the two files of
FileIndexTest.IndexMultiASTAndDeduplicate, each declaring ns::X, the
scoped query delivers ns::X exactly once, not once per
file-contribution as the claim states. -/
theorem fuzzyFind_per_file_counterexample :
    (matchQ mDedup reqNs).count "ns::X" = 1
    ∧ ¬((matchQ mDedup reqNs).count "ns::X" = 2) := by
  decide

/-- C3 (amended): fuzzyFind with an empty query and no scope restriction
delivers the installed symbol sequence, which holds every currently
indexed symbol exactly once per distinct symbol ID, deduplicated across
file contributions; indexing two files that each declare ns::X yields
ns::X once under the scoped query. -/
theorem fuzzyFind_empty_per_id :
    (∀ (syms : List Symbol) (occs : OccurrenceSlab),
      (MemIndex.build syms occs).fuzzyFind FuzzyFindRequest.empty
        = (MemIndex.build syms occs).Index)
    ∧ (∀ (syms : List Symbol) (occs : OccurrenceSlab) (i : String),
      (((MemIndex.build syms occs).fuzzyFind
          FuzzyFindRequest.empty).map Symbol.ID).count i
        = if i ∈ syms.map Symbol.ID then 1 else 0)
    ∧ List.Perm (matchQ mDedup reqNs) ["ns::f", "ns::X", "ns::ff"] := by
  refine ⟨fun syms occs => fuzzyFind_empty_req _,
    fun syms occs i => ?_, by decide⟩
  rw [fuzzyFind_empty_req]
  exact count_dedupById_ids i syms

/-- C4: when two indexed files contribute symbols with equal ID, a
fuzzyFind delivery mentions that ID at most once — the merged search
index deduplicates by ID at build time — and in the concrete two-file
scenario the shared class ns::X is delivered exactly once. -/
theorem fuzzyFind_dedup_by_id :
    (∀ (syms : List Symbol) (occs : OccurrenceSlab)
        (req : FuzzyFindRequest),
      (((MemIndex.build syms occs).fuzzyFind req).map Symbol.ID).Nodup)
    ∧ ((mDedup.Index.fuzzyFind FuzzyFindRequest.empty).map
        Symbol.ID).count "ns::X" = 1 := by
  exact ⟨fuzzyFind_build_ids_nodup, by decide⟩

/-- C8: decoding a Symbol from its YAML serialization restores it
field-for-field, and decoding accepts the absence of every optional
key, substituting the documented defaults (empty location, 0, false,
empty string). -/
theorem symbolYAML_roundtrip :
    (∀ s : Symbol, symbolFromYAML (symbolToYAML s) = some s)
    ∧ (∀ (i n sc : String) (k : SymbolKind) (l : SymbolLanguage),
      symbolFromYAML (minimalYAML i n sc
          { Kind := kindToYAML k, Lang := langToYAML l })
        = some (defaultedSymbol i n sc k l)) := by
  constructor
  · intro s
    simp [symbolFromYAML, symbolToYAML, kindFromYAML_kindToYAML,
      langFromYAML_langToYAML, emitOptional_getD, emitOptionalString_getD]
  · intro i n sc k l
    simp [symbolFromYAML, minimalYAML, kindFromYAML_kindToYAML,
      langFromYAML_langToYAML, defaultedSymbol, Symbol.empty]

/-- Erasing a key that has no entry leaves the association list
unchanged. -/
theorem eraseKey_not_mem {m : List (String × α)} {f : String}
    (h : f ∉ m.map Prod.fst) : eraseKey f m = m := by
  apply List.filter_eq_self.mpr
  intro e he
  cases hb : (e.1 == f) with
  | true =>
    exact absurd (eq_of_beq hb ▸ List.mem_map_of_mem Prod.fst he) h
  | false => rfl

/-- C5: a scoped fuzzyFind delivers exactly the installed symbols whose
scope equals an entry of the filter (exact comparison), and purely
local declarations never enter a produced batch, hence are never
delivered — mirrored concretely by FileIndexTest.IndexAST and
FileIndexTest.NoLocal. -/
theorem fuzzyFind_scope_exact_and_no_local :
    (∀ (syms : List Symbol) (occs : OccurrenceSlab) (q : String),
      (MemIndex.build syms occs).fuzzyFind { Query := q, Scopes := ["ns::"] }
        = (MemIndex.build syms occs).Index.filter
            (fun s => (s.Scope == "ns::") && queryMatches q s.Name))
    ∧ (∀ (schemes : List String) (pf : ParsedFile) (s : Symbol),
      s ∈ (indexAST schemes pf).1 →
      ∃ d, d ∈ pf.decls ∧ d.isLocal = false ∧ s = declSymbol schemes d)
    ∧ List.Perm (matchQ mIndexAST reqNs) ["ns::f", "ns::X"]
    ∧ List.Perm (matchQ mNoLocal FuzzyFindRequest.empty)
        ["ns", "ns::f", "ns::X"] := by
  refine ⟨fun syms occs q => ?_, fun schemes pf s hs => ?_,
    by decide, by decide⟩
  · exact List.filter_congr (fun s _ => by rw [scopeAllowed_single])
  · rcases List.mem_map.mp (mem_buildSlab hs) with ⟨d, hd, heq⟩
    rcases List.mem_filter.mp hd with ⟨hmem, hloc⟩
    refine ⟨d, hmem, ?_, heq.symm⟩
    cases hb : d.isLocal with
    | true => rw [hb] at hloc; exact absurd hloc (by decide)
    | false => rfl

/-- Witness for C5: the non-local declaration ns::f of the NoLocal file
is traced back to its declaration by the theorem. -/
theorem fuzzyFind_scope_exact_and_no_local_witness :
    ∃ d, d ∈ pfNoLocal.decls ∧ d.isLocal = false
      ∧ declSymbol [] nsFDecl = declSymbol [] d :=
  fuzzyFind_scope_exact_and_no_local.2.1 [] pfNoLocal
    (declSymbol [] nsFDecl) (by decide)

/-- C6: with duplicate-free requested IDs, findOccurrences delivers, as
a multiset, exactly the stored occurrences whose symbol ID is requested
and whose kind flags intersect the filter; concretely, the shared class
Foo of FileIndexTest.Occurrences yields one occurrence per file, each
carrying that file's URI and the annotated source range. -/
theorem findOccurrences_per_file :
    (∀ (m : MemIndex) (req : OccurrencesRequest), req.IDs.Nodup →
      ((m.findOccurrences req : List SymbolOccurrence) :
          Multiset SymbolOccurrence)
        = (((m.Occurrences.filter (fun p =>
              req.IDs.contains p.1
                && (Nat.land req.Filter p.2.Kind != 0))).map Prod.snd :
            List SymbolOccurrence) : Multiset SymbolOccurrence))
    ∧ List.Perm (mOccurrences.Index.findOccurrences reqOccurrences)
        [expectedOccT1, expectedOccT2] := by
  refine ⟨fun m req h => ?_, by decide⟩
  exact Multiset.coe_eq_coe.mpr (occFold_perm m.Occurrences req.Filter req.IDs h)

/-- Witness for C6: the characterization applied to the concrete
Occurrences scenario, whose single requested ID is duplicate-free. -/
theorem findOccurrences_per_file_witness :
    ((mOccurrences.Index.findOccurrences reqOccurrences :
        List SymbolOccurrence) : Multiset SymbolOccurrence)
      = (((mOccurrences.Index.Occurrences.filter (fun p =>
            reqOccurrences.IDs.contains p.1
              && (Nat.land reqOccurrences.Filter p.2.Kind != 0))).map
          Prod.snd : List SymbolOccurrence) : Multiset SymbolOccurrence) :=
  findOccurrences_per_file.1 mOccurrences.Index reqOccurrences (by decide)

/-- C7: removing a path that has no entry is a no-op on the store, and
the rebuild that still runs reinstalls an index built from the
unchanged merged views; every query over an empty index delivers zero
results, as in FileIndexTest.RemoveNonExisting. -/
theorem remove_nonexistent_noop :
    (∀ (m : FileIndex) (f : String),
      f ∉ m.FSymbols.FileToSlabs.map Prod.fst →
      f ∉ m.FSymbols.FileToOccurrenceSlabs.map Prod.fst →
      (m.update f none).FSymbols = m.FSymbols
      ∧ (m.update f none).Index
          = MemIndex.build m.FSymbols.allSymbols
              m.FSymbols.allOccurrencesList)
    ∧ (∀ req : FuzzyFindRequest, (MemIndex.build [] []).fuzzyFind req = [])
    ∧ (∀ ids : List String, (MemIndex.build [] []).lookup ids = [])
    ∧ (∀ req : OccurrencesRequest,
        (MemIndex.build [] []).findOccurrences req = [])
    ∧ matchQ ((FileIndex.init []).update "no.cpp" none)
        FuzzyFindRequest.empty = [] := by
  refine ⟨fun m f h1 h2 => ?_, fun req => rfl, fun ids => rfl,
    fun req => ?_, by decide⟩
  · have efs : m.FSymbols.update f none none = m.FSymbols := by
      simp only [FileSymbols.update]
      rw [eraseKey_not_mem h1, eraseKey_not_mem h2]
    exact ⟨by simp [FileIndex.update, efs],
      by simp [FileIndex.update, efs]⟩
  · show req.IDs.foldr _ [] = []
    induction req.IDs with
    | nil => rfl
    | cons i r ih => simp [MemIndex.build, occurrencesOfId, ih]

/-- Witness for C7: removing no.cpp from a freshly initialized index is
a no-op on the store and queries still deliver nothing. -/
theorem remove_nonexistent_noop_witness :
    ((FileIndex.init []).update "no.cpp" none).FSymbols
        = (FileIndex.init []).FSymbols
    ∧ ((FileIndex.init []).update "no.cpp" none).Index
        = MemIndex.build (FileIndex.init []).FSymbols.allSymbols
            (FileIndex.init []).FSymbols.allOccurrencesList :=
  remove_nonexistent_noop.1 (FileIndex.init []) "no.cpp"
    (by decide) (by decide)

/-- C9: every symbol of a batch produced under a non-empty URI scheme
list locates its canonical declaration under one of those schemes; with
an empty list the default scheme is used; concretely, the unittest
scheme yields CanonicalDeclaration URI unittest:///f.h, as in
FileIndexTest.CustomizedURIScheme. -/
theorem uri_schemes_respected :
    (∀ (schemes : List String) (pf : ParsedFile) (s : Symbol),
      schemes ≠ [] →
      s ∈ (indexAST schemes pf).1 →
      ∃ sch d, sch ∈ schemes ∧ d ∈ pf.decls
        ∧ s.CanonicalDeclaration.FileURI = sch ++ ":///" ++ d.declFile)
    ∧ (∀ (pf : ParsedFile) (s : Symbol),
      s ∈ (indexAST [] pf).1 →
      ∃ d, d ∈ pf.decls
        ∧ s.CanonicalDeclaration.FileURI
            = defaultScheme ++ ":///" ++ d.declFile)
    ∧ (mCustom.Index.fuzzyFind FuzzyFindRequest.empty).map
        (fun s => s.CanonicalDeclaration.FileURI) = ["unittest:///f.h"] := by
  refine ⟨fun schemes pf s hne hs => ?_, fun pf s hs => ?_, by decide⟩
  · rcases List.mem_map.mp (mem_buildSlab hs) with ⟨d, hd, heq⟩
    rcases List.mem_filter.mp hd with ⟨hmem, _⟩
    cases schemes with
    | nil => exact absurd rfl hne
    | cons a t =>
      refine ⟨a, d, List.mem_cons_self a t, hmem, ?_⟩
      rw [← heq]
      rfl
  · rcases List.mem_map.mp (mem_buildSlab hs) with ⟨d, hd, heq⟩
    rcases List.mem_filter.mp hd with ⟨hmem, _⟩
    refine ⟨d, hmem, ?_⟩
    rw [← heq]
    rfl

/-- Witness for C9: the unittest-scheme batch of the CustomizedURIScheme
scenario locates class string under the unittest scheme. -/
theorem uri_schemes_respected_witness :
    ∃ sch d, sch ∈ ["unittest"] ∧ d ∈ pfCustom.decls
      ∧ (declSymbol ["unittest"] stringDecl).CanonicalDeclaration.FileURI
          = sch ++ ":///" ++ d.declFile :=
  uri_schemes_respected.1 ["unittest"] pfCustom
    (declSymbol ["unittest"] stringDecl) (by decide) (by decide)

end Clangd
